import Mathlib

/-!
Verification of the `export` command of the moonpalace request-logging tool
(source: `export.go`).

The Go code is shallowly embedded: every pure computation of `export.go` is a
Lean function over `List Char`-backed strings, the stateful command body is a
function from the parsed flag set and the loaded record to an output value,
and the Go standard-library routines the code calls (`strings.ReplaceAll`,
`strings.TrimPrefix`, `strings.ToLower`, `time.Time.Format`,
`textproto.Reader.ReadMIMEHeader`, `textproto.MIMEHeader.Del`) are embedded
from their stdlib sources (Go 1.22) specialized to how `export.go` invokes
them.  Methods of the `Request` record that live outside the exported source
file (`Ident`, `Url`, `IsChat`) are modelled from the specification and say
so in their doc comments.
-/

namespace Moonpalace

/-! ## Embeddings of the Go string helpers used by export.go -/

/-- One step of Go `strings.ReplaceAll` for a one-character pattern: the
occurrences of a one-character pattern in a string are exactly the occurrences
of that character and never overlap, so the left-to-right scan of Go
`strings.Replace(s, old, new, -1)` replaces each occurrence of the character
independently. -/
def replaceChars (old : Char) (new : List Char) : List Char → List Char
  | [] => []
  | c :: cs => (if c = old then new else [c]) ++ replaceChars old new cs

/-- Embedding of Go `strings.ReplaceAll(s, old, new)` where `old` is a
one-character string (the two uses in export.go have `old = "'"` and
`old = "/"`). -/
def goReplaceAllChar (s : String) (old : Char) (new : String) : String :=
  ⟨replaceChars old new.data s.data⟩

/-- Embedding of the `escape` closure of `writeCurlCommand` (export.go:133-135):
`strings.ReplaceAll(s, "'", `'"'"'`)`. -/
def escape (s : String) : String :=
  goReplaceAllChar s '\'' "'\"'\"'"

/-- Embedding of Go `strings.HasPrefix`. -/
def goHasPfx (s p : String) : Bool :=
  p.data.isPrefixOf s.data

/-- Embedding of Go `strings.TrimPrefix`: drop `p` from the front of `s` when
it is a prefix, otherwise return `s` unchanged. -/
def goTrimPfx (s p : String) : String :=
  if goHasPfx s p then ⟨s.data.drop p.data.length⟩ else s

/-- Embedding of Go `strings.ToLower` restricted to ASCII (the simple Unicode
case mapping of Go agrees with `Char.toLower` on ASCII, and the HTTP method
strings this is applied to are ASCII). -/
def goToLower (s : String) : String :=
  ⟨s.data.map Char.toLower⟩

/-! ## POSIX shell word evaluation

Used to settle the curl-escaping round-trip claim: the escaped text, wrapped
in single quotes, must evaluate back to the original string under POSIX
shell quoting semantics. -/

/-- State of a POSIX shell word scanner: outside quotes, inside single quotes,
inside double quotes, or just after a backslash (outside quotes or inside
double quotes). -/
inductive ShellState
  | normal
  | single
  | double
  | normalEsc
  | doubleEsc
deriving DecidableEq, Repr

/-- POSIX shell evaluation (quote removal) of one word, on the fragment
without expansions: single quotes make everything literal until the closing
quote; double quotes make everything literal except `"`, backslash (special
only before `"`, `\`, `$`, a backquote, or a newline) and expansion starters;
an unquoted backslash escapes the next character (and removes a newline).
A `$` or a backquote outside single quotes would start an expansion, and an
unterminated quote or trailing backslash makes the word incomplete: both are
outside the fragment this model covers and yield `none`. -/
def shellEvalAux : ShellState → List Char → Option (List Char)
  | .normal, [] => some []
  | .normal, c :: cs =>
    if c = '\'' then shellEvalAux .single cs
    else if c = '"' then shellEvalAux .double cs
    else if c = '\\' then shellEvalAux .normalEsc cs
    else if c = '$' then none
    else if c = '`' then none
    else (shellEvalAux .normal cs).map (c :: ·)
  | .normalEsc, [] => none
  | .normalEsc, d :: ds =>
    if d = '\n' then shellEvalAux .normal ds
    else (shellEvalAux .normal ds).map (d :: ·)
  | .single, [] => none
  | .single, c :: cs =>
    if c = '\'' then shellEvalAux .normal cs
    else (shellEvalAux .single cs).map (c :: ·)
  | .double, [] => none
  | .double, c :: cs =>
    if c = '"' then shellEvalAux .normal cs
    else if c = '$' then none
    else if c = '`' then none
    else if c = '\\' then shellEvalAux .doubleEsc cs
    else (shellEvalAux .double cs).map (c :: ·)
  | .doubleEsc, [] => none
  | .doubleEsc, d :: ds =>
    if d = '"' then (shellEvalAux .double ds).map (d :: ·)
    else if d = '\\' then (shellEvalAux .double ds).map (d :: ·)
    else if d = '$' then (shellEvalAux .double ds).map (d :: ·)
    else if d = '`' then (shellEvalAux .double ds).map (d :: ·)
    else if d = '\n' then shellEvalAux .double ds
    else (shellEvalAux .double ds).map (fun x => '\\' :: d :: x)

/-- Evaluate a whole shell word starting outside quotes. -/
def shellEval (s : String) : Option String :=
  (shellEvalAux .normal s.data).map String.mk

/-! ## Embedding of Go textproto MIME header reading (Go 1.22)

`writeCurlCommand` parses the stored header block with
`textproto.NewReader(bufio.NewReader(strings.NewReader(hdr + "\r\n\r\n"))).ReadMIMEHeader()`
(export.go:150-153).  The embedding below follows Go 1.22
`net/textproto/reader.go` (`readMIMEHeader`, `readContinuedLineSlice`,
`skipSpace`, `trim`, `canonicalMIMEHeaderKey`, `validHeaderFieldByte`,
`validHeaderValueByte`) at the granularity of characters: the delimiters the
reader splits on (`\n`, `\r`, `:`, space, tab) are ASCII and never occur
inside a multi-byte UTF-8 sequence, and a byte outside ASCII is invalid in a
key or value exactly when a character outside ASCII is.  The size limits
(`maxMemory`, `maxHeaders`), reached only by megabyte-sized header blocks,
and the `commonHeader` string-interning table, which maps a string to an
equal string, are omitted.  Go returns the header map together with an error;
the `Bool` below is `true` exactly when the error is non-nil.  A Go map has
no iteration order; this embedding keeps entries in insertion order, one
representative of the unspecified order of `range mimeHeader`. -/

/-- Space or horizontal tab, the bytes Go textproto `trim` and `skipSpace`
treat as white space. -/
def isHSp (c : Char) : Bool :=
  c = ' ' || c = '\t'

/-- Embedding of Go textproto `trim`: remove leading and trailing space/tab. -/
def trimGoChars (l : List Char) : List Char :=
  ((l.dropWhile isHSp).reverse.dropWhile isHSp).reverse

/-- Split an input string into the lines `bufio.Reader.ReadLine` yields: each
`\n` ends a line and one `\r` directly before it is dropped; a nonempty tail
after the last `\n` is a final line of its own (the accumulator holds the
current line reversed). -/
def splitLinesAux (acc : List Char) : List Char → List String
  | [] => if acc.isEmpty then [] else [⟨acc.reverse⟩]
  | c :: cs =>
    if c = '\n' then
      (match acc with
        | '\r' :: a => (⟨a.reverse⟩ : String)
        | a => ⟨a.reverse⟩) :: splitLinesAux [] cs
    else splitLinesAux (c :: acc) cs

/-- The line sequence the textproto reader sees in an input string. -/
def splitLines (s : String) : List String :=
  splitLinesAux [] s.data

/-- A continuation line: `readContinuedLineSlice` joins a following line into
the current header entry exactly when `skipSpace` consumed at least one byte,
i.e. when the line starts with a space or tab. -/
def isContLine (s : String) : Bool :=
  match s.data with
  | [] => false
  | c :: _ => isHSp c

/-- Embedding of Go textproto `validHeaderFieldByte`: the RFC 7230 token
characters (digits, letters, and `!#$%&'*+-.^_`​`|~`); every other byte,
including space and anything outside ASCII, is not a token byte. -/
def validHeaderFieldByte (c : Char) : Bool :=
  "0123456789abcdefghijklmnopqrstuvwxyzABCDEFGHIJKLMNOPQRSTUVWXYZ!#$%&'*+-.^_`|~".data.contains c

/-- Embedding of Go textproto `validHeaderValueByte`: horizontal tab, space
and the non-space printable ASCII bytes 0x21-0x7e. -/
def validHeaderValueByte (c : Char) : Bool :=
  c.toNat = 9 || c.toNat = 32 || (33 ≤ c.toNat && c.toNat ≤ 126)

/-- The canonicalization loop of Go textproto `canonicalMIMEHeaderKey`: first
letter and every letter after a hyphen upper-cased, every other letter
lower-cased (`Char.toUpper`/`Char.toLower` agree with Go's byte arithmetic on
ASCII and leave everything else unchanged); the flag tracks whether the
previous byte was a hyphen (initially treated as true). -/
def canonChars : Bool → List Char → List Char
  | _, [] => []
  | upper, c :: cs =>
    let c2 := if upper then c.toUpper else c.toLower
    c2 :: canonChars (c2 == '-') cs

/-- Embedding of the byte-slice version of Go textproto
`canonicalMIMEHeaderKey` used while parsing: a key with a byte that is
neither a token byte nor a space is malformed (`none`); a key containing a
space is accepted but not canonicalized (Go issue 34540); otherwise the key
is canonicalized. -/
def canonicalMIMEHeaderKeyBytes (k : String) : Option String :=
  if k.data.all (fun c => validHeaderFieldByte c || c == ' ') then
    if k.data.any (fun c => c == ' ') then some k
    else some ⟨canonChars true k.data⟩
  else none

/-- Embedding of the exported Go `textproto.CanonicalMIMEHeaderKey` used by
`MIMEHeader.Del`: canonicalize when every byte is a token byte, otherwise
return the key unchanged. -/
def CanonicalMIMEHeaderKey (s : String) : String :=
  if s.data.all validHeaderFieldByte then ⟨canonChars true s.data⟩ else s

/-- A `textproto.MIMEHeader` as insertion-ordered entries: one entry per
canonical key, holding that key's values in arrival order. -/
abbrev MIMEHeader := List (String × List String)

/-- Embedding of `m[key] = append(m[key], value)` on the entry list: append
the value to the existing entry for the key, or add a new entry at the end. -/
def mimeAdd : MIMEHeader → String → String → MIMEHeader
  | [], k, v => [(k, [v])]
  | (k0, vs) :: rest, k, v =>
    if k0 = k then (k0, vs ++ [v]) :: rest
    else (k0, vs) :: mimeAdd rest k v

/-- Embedding of Go `textproto.MIMEHeader.Del`: remove the entry of the
canonicalized key. -/
def MIMEHeader.Del (m : MIMEHeader) (key : String) : MIMEHeader :=
  m.filter (fun e => e.1 != CanonicalMIMEHeaderKey key)

/-- Embedding of `bytes.Cut(kv, colon)`: the part before the first `:` and
the part after it, or `none` when there is no colon. -/
def cutColon : List Char → Option (List Char × List Char)
  | [] => none
  | c :: cs =>
    if c = ':' then some ([], cs)
    else
      match cutColon cs with
      | none => none
      | some (k, v) => some (c :: k, v)

/-- The joined text of one header entry as `readContinuedLineSlice` builds
it: the first line trimmed, then every continuation line trimmed and joined
with a single space (`skipSpace` eats the leading white space, the rest of
the line is read and trimmed). -/
def contJoin (l : String) (conts : List String) : List Char :=
  trimGoChars l.data ++ conts.foldr (fun c acc => ' ' :: trimGoChars c.data ++ acc) []

/-- The header-reading loop of Go 1.22 textproto `readMIMEHeader`, one
iteration per header entry, fuelled to make the recursion structural (each
iteration consumes at least one line, so any fuel beyond the line count
behaves identically, see `parseFuel_congr`).  A blank line ends the read with
success; end of input, a first line with no colon
(`mustHaveFieldNameColon`), a malformed key or a malformed value byte end it
with an error and the entries parsed so far; otherwise the value is
left-trimmed and appended under the (canonicalized) key. -/
def parseFuel : Nat → MIMEHeader → List String → MIMEHeader × Bool
  | 0, m, _ => (m, true)
  | _ + 1, m, [] => (m, true)
  | fuel + 1, m, l :: ls =>
    if l.data.isEmpty then (m, false)
    else if ! l.data.contains ':' then (m, true)
    else
      match cutColon (contJoin l (ls.takeWhile isContLine)) with
      | none => (m, true)
      | some (k, v) =>
        match canonicalMIMEHeaderKeyBytes ⟨k⟩ with
        | none => (m, true)
        | some key =>
          if v.all validHeaderValueByte then
            parseFuel fuel (mimeAdd m key ⟨v.dropWhile isHSp⟩) (ls.dropWhile isContLine)
          else (m, true)

/-- Embedding of Go 1.22 `textproto.Reader.ReadMIMEHeader` on a string input:
the map built and whether an error was returned.  An input whose first byte
is a space or tab fails immediately with no entries (`Peek(1)` check); an
empty input fails at once with `io.EOF` from the first line read; otherwise
the line loop runs with enough fuel for every line. -/
def readMIMEHeader (s : String) : MIMEHeader × Bool :=
  match s.data with
  | [] => ([], true)
  | c :: _ =>
    if isHSp c then ([], true)
    else parseFuel ((splitLines s).length + 1) [] (splitLines s)

/-! ## The record data model -/

/-- Embedding of `database/sql.NullString`: a string plus a validity flag
("present/absent" of a nullable column). -/
structure NullString where
  String : String
  Valid : Bool
deriving DecidableEq, Repr

/-- A civil timestamp, the part of a Go `time.Time` that the one layout used
by export.go renders. -/
structure GoTime where
  year : Nat
  month : Nat
  day : Nat
  hour : Nat
  minute : Nat
  second : Nat
deriving DecidableEq, Repr

/-- A natural number in decimal, zero-padded on the left to `w` digits. -/
def padNat (w n : Nat) : String :=
  ⟨List.replicate (w - (toString n).data.length) '0' ++ (toString n).data⟩

/-- Embedding of Go `time.Time.Format` specialized to the fixed layout
`"20060102150405"`, the only layout export.go uses (line 126): zero-padded
4-digit year then 2-digit month, day, hour, minute and second. -/
def GoTime.Format (t : GoTime) : String :=
  padNat 4 t.year ++ padNat 2 t.month ++ padNat 2 t.day
    ++ padNat 2 t.hour ++ padNat 2 t.minute ++ padNat 2 t.second

/-- The Request record (spec section 3).  The fields export.go reads directly
carry their Go names (`RequestMethod`, `RequestPath`, `RequestHeader`,
`RequestBody`, `MoonshotUID`, `CreatedAt`, `Category`, `Tags`); the struct
definition itself is outside the exported source file, so the remaining
fields are modelled from the spec: `id`, `chatcmplId` and `externalRequestId`
are the identifiers behind `Ident()`, `url` is the reconstructed full URL
behind `Url()`, and `isChatRecord` is the chat-interaction capability behind
`IsChat()`. -/
structure Request where
  id : Int
  chatcmplId : NullString
  externalRequestId : NullString
  RequestMethod : String
  RequestPath : String
  RequestHeader : NullString
  RequestBody : NullString
  MoonshotUID : NullString
  CreatedAt : GoTime
  Category : String
  Tags : List String
  url : String
  isChatRecord : Bool
deriving DecidableEq, Repr

/-- Modelled from the spec: `Request.Ident()` is defined outside the exported
source file.  The spec's data model has optional `chatcmplId` /
`externalRequestId` identifiers and the filename synthesizer contract keys on
them in that order (completion id first, then external request id, else no
symbolic identifier), matching the `"chatcmpl="` / `"requestid="` prefixes
genFilename tests; with neither set the identifier falls back to the numeric
row id. -/
def Request.Ident (r : Request) : String :=
  if r.chatcmplId.Valid then "chatcmpl=" ++ r.chatcmplId.String
  else if r.externalRequestId.Valid then "requestid=" ++ r.externalRequestId.String
  else "id=" ++ toString r.id

/-- Modelled from the spec: `Request.Url()` is defined outside the exported
source file; it reconstructs the full URL of the original call from the
stored host/base components and path, modelled as one stored value. -/
def Request.Url (r : Request) : String :=
  r.url

/-- Modelled from the spec: `Request.IsChat()` is defined outside the
exported source file; it reports whether the record is a
chat-completion-style interaction, modelled as a stored capability bit. -/
def Request.IsChat (r : Request) : Bool :=
  r.isChatRecord

/-! ## genFilename (export.go:107-130) -/

/-- Embedding of `genFilename`: a completion-id identifier gives
`<id>.json`, an external request id gives `requestid-<id>.json`, and
otherwise the name is synthesized from the lower-cased method, the path with
its `/v1/` prefix stripped and `/` replaced by `-`, the UID when present, and
the `YYYYMMDDHHMMSS` creation timestamp. -/
def genFilename (request : Request) : String :=
  if goHasPfx request.Ident "chatcmpl=" then
    goTrimPfx request.Ident "chatcmpl=" ++ ".json"
  else if goHasPfx request.Ident "requestid=" then
    "requestid-" ++ goTrimPfx request.Ident "requestid=" ++ ".json"
  else
    goToLower request.RequestMethod ++ "-"
      ++ goReplaceAllChar (goTrimPfx request.RequestPath "/v1/") '/' "-"
      ++ (if request.MoonshotUID.Valid then "-" ++ request.MoonshotUID.String else "")
      ++ "-" ++ request.CreatedAt.Format ++ ".json"

/-! ## writeCurlCommand (export.go:132-183)

The function writes a sequence of chunks with `io.WriteString`; the model
lists the chunks and concatenates them.  A write error aborts the Go
function early, but that is a fault of the output sink (spec: I/OError), not
of the rendering; the model renders the full text of the successful case. -/

/-- The first chunk: method and URL, both escaped, in single quotes
(export.go:136-142). -/
def xchunk (r : Request) : String :=
  "curl -X '" ++ escape r.RequestMethod ++ "' '" ++ escape r.Url ++ "' \\\n\t"

/-- The fixed authorization chunk (export.go:145-148). -/
def authChunk : String :=
  "-H \"Authorization: Bearer $MOONSHOT_API_KEY\"\\\n\t"

/-- One `-H` chunk for one header name/value pair, both escaped
(export.go:158-163). -/
def renderHChunk (p : String × String) : String :=
  "-H '" ++ escape p.1 ++ ": " ++ escape p.2 ++ "' \\\n\t"

/-- The (name, value) pairs of a header map in iteration order, one pair per
value: the double loop `for k, vv := range mimeHeader { for _, v := range vv }`. -/
def flattenEntries (m : MIMEHeader) : List (String × String) :=
  m.foldr (fun e acc => e.2.map (fun v => (e.1, v)) ++ acc) []

/-- The header map of a record after parsing the stored block (with the
`"\r\n\r\n"` terminator appended, export.go:152) and deleting
`Content-Length` and `X-Unix-Micro` (export.go:154-155).  The parse error is
discarded (`mimeHeader, _ :=`), keeping whatever entries were parsed. -/
def strippedEntries (r : Request) : MIMEHeader :=
  ((readMIMEHeader (r.RequestHeader.String ++ "\r\n\r\n")).1.Del
      "Content-Length").Del "X-Unix-Micro"

/-- The `-H` chunks of a record: one per remaining header value when a header
block is stored, none otherwise (export.go:150-169). -/
def headerChunks (r : Request) : List String :=
  if r.RequestHeader.Valid then (flattenEntries (strippedEntries r)).map renderHChunk
  else []

/-- The body chunk when a body is stored (export.go:170-178). -/
def bodyChunks (r : Request) : List String :=
  if r.RequestBody.Valid then ["-d '" ++ escape r.RequestBody.String ++ "'"] else []

/-- All chunks of the curl rendering in write order, ending with the final
newline (export.go:179). -/
def curlChunks (r : Request) : List String :=
  xchunk r :: authChunk :: (headerChunks r ++ bodyChunks r ++ ["\n"])

/-- Concatenation of a chunk list. -/
def concatAll (l : List String) : String :=
  l.foldr (· ++ ·) ""

/-- The full text `writeCurlCommand` writes for a record. -/
def writeCurlCommand (r : Request) : String :=
  concatAll (curlChunks r)

/-! ## The export command body (export.go:32-99) -/

/-- The annotation/rendering flags of the export command with their
registered defaults (export.go:89-99): `--good`, `--bad`, `--tag`
(repeatable), `--escape-html` (default false) and `--curl`. -/
structure ExportFlags where
  goodCase : Bool
  badCase : Bool
  tags : List String
  escapeHTML : Bool
  curl : Bool
deriving DecidableEq, Repr

/-- The flag values when the caller sets none of the annotation/rendering
flags: every default registered in export.go:89-99 (`false` for the four
booleans, `nil` for the tag array). -/
def defaultFlags : ExportFlags :=
  { goodCase := false, badCase := false, tags := [], escapeHTML := false, curl := false }

/-- Embedding of the annotation step (export.go:46-56): only a chat record is
touched; the `switch` gives `goodCase` precedence over `badCase`; a nonempty
tag list replaces the whole tag field. -/
def annotate (goodCase badCase : Bool) (tags : List String) (r : Request) : Request :=
  if r.IsChat then
    let r1 :=
      if goodCase then { r with Category := "goodcase" }
      else if badCase then { r with Category := "badcase" }
      else r
    if tags.length > 0 then { r1 with Tags := tags } else r1
  else r

/-- What one export invocation hands to its output sink: the curl text, or
the (possibly annotated) record bound for the JSON encoder together with the
`SetEscapeHTML` setting it will be encoded under. -/
inductive ExportOutput where
  | curlOut (text : String)
  | jsonOut (record : Request) (escapeHTML : Bool)
deriving DecidableEq, Repr

/-- Embedding of the Run closure of exportCommand after the record has been
loaded (export.go:40-86): in curl mode the curl command is written and the
closure returns before the annotation step; otherwise the record is
annotated and handed to the JSON encoder (4-space indent) with the caller's
`escapeHTML` flag.  Record lookup, sink selection and write errors are
external collaborators outside this model. -/
def exportRun (flags : ExportFlags) (request : Request) : ExportOutput :=
  if flags.curl then .curlOut (writeCurlCommand request)
  else .jsonOut (annotate flags.goodCase flags.badCase flags.tags request) flags.escapeHTML

/-- Split a string at every `'\n'`, keeping a (possibly empty) final piece:
text ending in a newline yields an empty last piece, so the pieces witness
both the line structure and the trailing newline of the curl output. -/
def splitNLAux (acc : List Char) : List Char → List String
  | [] => [⟨acc.reverse⟩]
  | c :: cs =>
    if c = '\n' then (⟨acc.reverse⟩ : String) :: splitNLAux [] cs
    else splitNLAux (c :: acc) cs

/-- The pieces of a string between its newlines. -/
def splitNL (s : String) : List String :=
  splitNLAux [] s.data

/-- The same record with the stored-header validity flag cleared: the record
as it would be had no header block been stored. -/
def dropHeader (r : Request) : Request :=
  { r with RequestHeader := { String := r.RequestHeader.String, Valid := false } }

/-! ## Sample records for concrete evaluations -/

/-- The record of the spec's curl example: POST to /v1/chat/completions with
body `{"a":1}`, no stored header block. -/
def exampleRecord : Request :=
  { id := 1
    chatcmplId := { String := "", Valid := false }
    externalRequestId := { String := "", Valid := false }
    RequestMethod := "POST"
    RequestPath := "/v1/chat/completions"
    RequestHeader := { String := "", Valid := false }
    RequestBody := { String := "\x7b\"a\":1\x7d", Valid := true }
    MoonshotUID := { String := "", Valid := false }
    CreatedAt := { year := 2024, month := 5, day := 1, hour := 12, minute := 0, second := 0 }
    Category := ""
    Tags := []
    url := "https://api.moonshot.cn/v1/chat/completions"
    isChatRecord := true }

/-- A record with a stored header block holding `Content-Length`,
`X-Unix-Micro` and `Content-Type`. -/
def headeredRecord : Request :=
  { exampleRecord with
      RequestHeader :=
        { String := "Content-Length: 5\r\nX-Unix-Micro: 123\r\nContent-Type: application/json"
          Valid := true } }

/-- A record whose stored header block fails MIME parsing after one header
line was already parsed (the second line has no colon). -/
def badHeaderRecord : Request :=
  { exampleRecord with
      RequestHeader := { String := "A: 1\nbadline", Valid := true }
      RequestBody := { String := "", Valid := false } }

/-- A record whose stored header block fails MIME parsing immediately (its
first byte is a space), so no entries at all are parsed. -/
def spaceHeaderRecord : Request :=
  { exampleRecord with RequestHeader := { String := " x", Valid := true } }

/-- A non-chat record (a files-endpoint call). -/
def nonChatRecord : Request :=
  { exampleRecord with
      RequestPath := "/v1/files"
      url := "https://api.moonshot.cn/v1/files"
      isChatRecord := false
      Category := "old"
      Tags := ["keep"] }

/-- A chat record carrying a previous annotation. -/
def annotatedChatRecord : Request :=
  { exampleRecord with Category := "goodcase", Tags := ["old-tag"] }

/-- A record with a completion id. -/
def chatIdRecord : Request :=
  { exampleRecord with chatcmplId := { String := "chatcmpl-123", Valid := true } }

/-- A record with only an external request id. -/
def reqIdRecord : Request :=
  { exampleRecord with externalRequestId := { String := "req-42", Valid := true } }

/-- A record with no symbolic identifier and a UID. -/
def plainRecord : Request :=
  { exampleRecord with MoonshotUID := { String := "uidX", Valid := true } }

/-- A record with no stored body (as a GET-style call would leave it). -/
def noBodyRecord : Request :=
  { exampleRecord with RequestBody := { String := "", Valid := false } }

/-! ## Claims -/

/-- Scanning the single-quote escape sequence emitted by `escape` from inside
a single-quoted context reproduces exactly the original characters: the
escaped text followed by a closing quote evaluates to the original characters
followed by whatever the rest evaluates to. -/
theorem shellEvalAux_single_escape (cs rest : List Char) :
    shellEvalAux .single (replaceChars '\'' "'\"'\"'".data cs ++ '\'' :: rest)
      = (shellEvalAux .normal rest).map (cs ++ ·) := by
  induction cs with
  | nil =>
    have h : shellEvalAux .single ('\'' :: rest) = shellEvalAux .normal rest := rfl
    simp [replaceChars, h]
  | cons c cs ih =>
    by_cases hc : c = '\''
    · subst hc
      have h : ∀ T : List Char,
          shellEvalAux .single ('\'' :: '"' :: '\'' :: '"' :: '\'' :: T)
            = (shellEvalAux .single T).map ('\'' :: ·) := fun T => rfl
      rw [show replaceChars '\'' "'\"'\"'".data ('\'' :: cs)
            = '\'' :: '"' :: '\'' :: '"' :: '\''
              :: replaceChars '\'' "'\"'\"'".data cs from rfl]
      rw [List.cons_append, List.cons_append, List.cons_append,
        List.cons_append, List.cons_append, h, ih, Option.map_map]
      rfl
    · have h : ∀ T : List Char, shellEvalAux .single (c :: T)
          = (shellEvalAux .single T).map (c :: ·) := by
        intro T
        simp [shellEvalAux, hc]
      rw [show replaceChars '\'' "'\"'\"'".data (c :: cs)
            = [c] ++ replaceChars '\'' "'\"'\"'".data cs from by
          simp [replaceChars, hc]]
      rw [List.singleton_append, List.cons_append, h, ih, Option.map_map]
      rfl


/-- C1: the curl renderer's escaping replaces every embedded single quote
with the sequence `'"'"'`, and for any string containing one or more single
quotes the escaped form, embedded in a single-quoted shell literal,
evaluates by POSIX shell semantics back to the original string; the renderer
applies this escaping to the method, the URL, header names, header values
and the body. -/
theorem curl_escape_roundtrip :
    (∀ s : String, '\'' ∈ s.data →
        shellEval ("'" ++ escape s ++ "'") = some s)
  ∧ (∀ s : String,
        (escape s).data
          = s.data.foldr
              (fun c acc => (if c = '\'' then "'\"'\"'".data else [c]) ++ acc) [])
  ∧ (∀ r : Request,
        xchunk r = "curl -X '" ++ escape r.RequestMethod ++ "' '"
            ++ escape r.Url ++ "' \\\n\t"
      ∧ (∀ p : String × String,
            renderHChunk p = "-H '" ++ escape p.1 ++ ": " ++ escape p.2 ++ "' \\\n\t")
      ∧ bodyChunks r
          = if r.RequestBody.Valid then ["-d '" ++ escape r.RequestBody.String ++ "'"]
            else []) := by
  refine ⟨?_, ?_, ?_⟩
  · intro s _
    have hdata : ("'" ++ escape s ++ "'").data
        = '\'' :: (replaceChars '\'' "'\"'\"'".data s.data ++ '\'' :: []) := by
      rw [String.data_append, String.data_append]
      rfl
    have hstep : shellEvalAux .normal
          ('\'' :: (replaceChars '\'' "'\"'\"'".data s.data ++ '\'' :: []))
        = shellEvalAux .single
            (replaceChars '\'' "'\"'\"'".data s.data ++ '\'' :: []) := rfl
    rw [shellEval, hdata, hstep, shellEvalAux_single_escape]
    simp [shellEvalAux]
  · intro s
    show replaceChars '\'' "'\"'\"'".data s.data = _
    induction s.data with
    | nil => rfl
    | cons c cs ih => simp [replaceChars, ih]
  · intro r
    exact ⟨rfl, fun p => rfl, rfl⟩

/-- Witness for C1 at the concrete string `it's`. -/
theorem curl_escape_roundtrip_witness :
    '\'' ∈ ("it's" : String).data
    ∧ shellEval ("'" ++ escape "it's" ++ "'") = some "it's" :=
  ⟨by decide, curl_escape_roundtrip.1 "it's" (by decide)⟩

/-- Two strings with the same characters are equal. -/
theorem strEq_of_data {s t : String} (h : s.data = t.data) : s = t := by
  cases s
  cases t
  exact congrArg String.mk h

/-- The concatenation of chunk lists is the concatenation of their
concatenations. -/
theorem concatAll_append (l1 l2 : List String) :
    concatAll (l1 ++ l2) = concatAll l1 ++ concatAll l2 := by
  induction l1 with
  | nil =>
    rw [List.nil_append, show concatAll ([] : List String) = "" from rfl,
      String.empty_append]
  | cons x xs ih =>
    rw [List.cons_append,
      show concatAll (x :: (xs ++ l2)) = x ++ concatAll (xs ++ l2) from rfl,
      show concatAll (x :: xs) = x ++ concatAll xs from rfl, ih,
      String.append_assoc]

/-- C2: for every record, each chunk the curl renderer emits before the
body/newline tail ends with the continuation sequence backslash-newline-tab,
the body chunk (present exactly when a body is stored) never ends with that
sequence, and the whole output ends with a plain newline; on the spec's
example record (POST to /v1/chat/completions, body `{"a":1}`, no stored
headers) the output is exactly the three lines given, each
backslash-continued except the last. -/
theorem curl_line_continuation :
    (∀ r : Request, ∃ pre : List String,
        curlChunks r = pre ++ (bodyChunks r ++ ["\n"])
        ∧ (∀ c ∈ pre, ∃ a : String, c = a ++ "\\\n\t")
        ∧ bodyChunks r
            = (if r.RequestBody.Valid then ["-d '" ++ escape r.RequestBody.String ++ "'"]
               else []))
  ∧ (∀ r : Request, ∀ c ∈ bodyChunks r, ¬∃ a : String, c = a ++ "\\\n\t")
  ∧ (∀ r : Request, ∃ a : String, writeCurlCommand r = a ++ "\n")
  ∧ writeCurlCommand exampleRecord
      = "curl -X 'POST' 'https://api.moonshot.cn/v1/chat/completions' \\\n\t-H \"Authorization: Bearer $MOONSHOT_API_KEY\"\\\n\t-d '\x7b\"a\":1\x7d'\n"
  ∧ splitNL (writeCurlCommand exampleRecord)
      = ["curl -X 'POST' 'https://api.moonshot.cn/v1/chat/completions' \\",
         "\t-H \"Authorization: Bearer $MOONSHOT_API_KEY\"\\",
         "\t-d '\x7b\"a\":1\x7d'",
         ""] := by
  refine ⟨?_, ?_, ?_, by decide, by decide⟩
  · intro r
    refine ⟨xchunk r :: authChunk :: headerChunks r, by simp [curlChunks], ?_, rfl⟩
    intro c hc
    rw [List.mem_cons, List.mem_cons] at hc
    rcases hc with hc | hc | hc
    · refine ⟨"curl -X '" ++ escape r.RequestMethod ++ "' '" ++ escape r.Url ++ "' ", ?_⟩
      rw [hc]
      apply strEq_of_data
      simp only [xchunk, String.data_append, List.append_assoc]
      rfl
    · exact ⟨"-H \"Authorization: Bearer $MOONSHOT_API_KEY\"", by rw [hc]; rfl⟩
    · have hc2 : c ∈ (flattenEntries (strippedEntries r)).map renderHChunk := by
        cases hvv : r.RequestHeader.Valid with
        | false => simp [headerChunks, hvv] at hc
        | true => simpa [headerChunks, hvv] using hc
      rcases List.mem_map.mp hc2 with ⟨p, -, hp⟩
      refine ⟨"-H '" ++ escape p.1 ++ ": " ++ escape p.2 ++ "' ", ?_⟩
      rw [← hp]
      apply strEq_of_data
      simp only [renderHChunk, String.data_append, List.append_assoc]
      rfl
  · intro r c hc ⟨a, ha⟩
    have hcd : c = "-d '" ++ escape r.RequestBody.String ++ "'" := by
      cases hvv : r.RequestBody.Valid with
      | false => simp [bodyChunks, hvv] at hc
      | true =>
        rw [bodyChunks, if_pos hvv, List.mem_singleton] at hc
        exact hc
    have h1 : c.data.getLast? = some '\'' := by
      rw [hcd, String.data_append]
      exact List.getLast?_concat _
    have h2 : c.data.getLast? = some '\t' := by
      rw [ha, String.data_append,
        show ("\\\n\t" : String).data = ['\\', '\n'] ++ ['\t'] from rfl,
        ← List.append_assoc]
      exact List.getLast?_concat _
    rw [h1] at h2
    exact absurd h2 (by decide)
  · intro r
    refine ⟨concatAll (xchunk r :: authChunk :: (headerChunks r ++ bodyChunks r)), ?_⟩
    have h : curlChunks r
        = (xchunk r :: authChunk :: (headerChunks r ++ bodyChunks r)) ++ ["\n"] := by
      simp [curlChunks]
    rw [writeCurlCommand, h, concatAll_append]
    rw [show concatAll ["\n"] = "\n" ++ "" from rfl, String.append_empty]

/-- Witness for C2 at the spec's example record (body present) and at a
record with no stored body. -/
theorem curl_line_continuation_witness :
    (∃ pre : List String,
        curlChunks noBodyRecord = pre ++ (bodyChunks noBodyRecord ++ ["\n"])
        ∧ (∀ c ∈ pre, ∃ a : String, c = a ++ "\\\n\t")
        ∧ bodyChunks noBodyRecord
            = (if noBodyRecord.RequestBody.Valid then
                 ["-d '" ++ escape noBodyRecord.RequestBody.String ++ "'"]
               else []))
    ∧ (∃ a : String, writeCurlCommand noBodyRecord = a ++ "\n")
    ∧ bodyChunks noBodyRecord = []
    ∧ ("-d '" ++ escape exampleRecord.RequestBody.String ++ "'")
        ∈ bodyChunks exampleRecord
    ∧ ¬∃ a : String,
        ("-d '" ++ escape exampleRecord.RequestBody.String ++ "'") = a ++ "\\\n\t" :=
  ⟨curl_line_continuation.1 noBodyRecord,
   curl_line_continuation.2.2.1 noBodyRecord,
   by decide,
   by decide,
   curl_line_continuation.2.1 exampleRecord _ (by decide)⟩

/-- Membership in the flattened pair list comes from an entry of the map. -/
theorem mem_flattenEntries {m : MIMEHeader} {p : String × String}
    (hp : p ∈ flattenEntries m) : ∃ e ∈ m, p.1 = e.1 ∧ p.2 ∈ e.2 := by
  induction m with
  | nil => cases hp
  | cons e rest ih =>
    rcases List.mem_append.mp hp with h | h
    · rcases List.mem_map.mp h with ⟨v, hv, hpv⟩
      exact ⟨e, List.mem_cons_self e rest, by rw [← hpv], by rw [← hpv]; exact hv⟩
    · rcases ih h with ⟨e', he', hp1, hp2⟩
      exact ⟨e', List.mem_cons_of_mem e he', hp1, hp2⟩

/-- An entry surviving `Del key` is an entry of the map whose name differs
from the canonicalized key. -/
theorem mem_Del {m : MIMEHeader} {key : String} {e : String × List String}
    (he : e ∈ m.Del key) : e ∈ m ∧ e.1 ≠ CanonicalMIMEHeaderKey key := by
  have h := List.mem_filter.mp he
  refine ⟨h.1, ?_⟩
  simpa using h.2

/-- C3: with a stored header block, the rendered `-H` lines are exactly one
per value of the parsed header map after deleting `Content-Length` and
`X-Unix-Micro`; no emitted pair is named `Content-Length` or `X-Unix-Micro`,
and the number of lines is the total number of remaining values. -/
theorem curl_header_stripping (r : Request)
    (h : r.RequestHeader.Valid = true) :
    headerChunks r = (flattenEntries (strippedEntries r)).map renderHChunk
  ∧ (∀ p ∈ flattenEntries (strippedEntries r),
        p.1 ≠ "Content-Length" ∧ p.1 ≠ "X-Unix-Micro")
  ∧ (flattenEntries (strippedEntries r)).length
      = (strippedEntries r).foldr (fun e n => e.2.length + n) 0 := by
  refine ⟨by simp [headerChunks, h], ?_, ?_⟩
  · intro p hp
    rcases mem_flattenEntries hp with ⟨e, he, hp1, -⟩
    have hXU := mem_Del he
    have hCL := mem_Del hXU.1
    constructor
    · rw [hp1]
      have : CanonicalMIMEHeaderKey "Content-Length" = "Content-Length" := by decide
      rw [← this]
      exact hCL.2
    · rw [hp1]
      have : CanonicalMIMEHeaderKey "X-Unix-Micro" = "X-Unix-Micro" := by decide
      rw [← this]
      exact hXU.2
  · induction strippedEntries r with
    | nil => rfl
    | cons e rest ih => simp [flattenEntries] at ih ⊢; omega

/-- Witness for C3 at a record whose header block stores `Content-Length`,
`X-Unix-Micro` and `Content-Type`. -/
theorem curl_header_stripping_witness :
    headeredRecord.RequestHeader.Valid = true
    ∧ (∀ p ∈ flattenEntries (strippedEntries headeredRecord),
          p.1 ≠ "Content-Length" ∧ p.1 ≠ "X-Unix-Micro")
    ∧ headerChunks headeredRecord = ["-H 'Content-Type: application/json' \\\n\t"] :=
  ⟨rfl, (curl_header_stripping headeredRecord rfl).2.1, by decide⟩

/-- C4: every curl rendering contains the fixed authorization line with the
literal environment-variable placeholder text directly after the method/URL
chunk, and the rendered text is a function of the record's method, URL,
stored header block and stored body alone — no other field (and no secret
value) influences it. -/
theorem curl_authorization_fixed :
    (∀ r : Request, ∃ t : String,
        writeCurlCommand r
          = xchunk r ++ ("-H \"Authorization: Bearer $MOONSHOT_API_KEY\""
              ++ ("\\\n\t" ++ t)))
  ∧ (∀ r1 r2 : Request,
        r1.RequestMethod = r2.RequestMethod → r1.url = r2.url →
        r1.RequestHeader = r2.RequestHeader → r1.RequestBody = r2.RequestBody →
        writeCurlCommand r1 = writeCurlCommand r2) := by
  constructor
  · intro r
    refine ⟨concatAll (headerChunks r ++ bodyChunks r ++ ["\n"]), ?_⟩
    have h1 : writeCurlCommand r
        = xchunk r ++ (authChunk ++ concatAll (headerChunks r ++ bodyChunks r ++ ["\n"])) := rfl
    have h2 : authChunk
        = "-H \"Authorization: Bearer $MOONSHOT_API_KEY\"" ++ "\\\n\t" := by decide
    rw [h1, h2, String.append_assoc]
  · intro r1 r2 hm hu hh hb
    simp [writeCurlCommand, curlChunks, xchunk, Request.Url, headerChunks,
      strippedEntries, bodyChunks, hm, hu, hh, hb]

/-- Witness for C4: the authorization line of the example record's rendering,
and equality of the renderings of two records that differ in every field the
curl renderer does not read (id, identifiers, path, UID, time, annotation,
chat capability). -/
theorem curl_authorization_fixed_witness :
    (∃ t : String,
        writeCurlCommand exampleRecord
          = xchunk exampleRecord
              ++ ("-H \"Authorization: Bearer $MOONSHOT_API_KEY\"" ++ ("\\\n\t" ++ t)))
    ∧ writeCurlCommand exampleRecord
        = writeCurlCommand
            { exampleRecord with
                id := 99
                chatcmplId := { String := "chatcmpl-xyz", Valid := true }
                externalRequestId := { String := "req-7", Valid := true }
                RequestPath := "/v1/other"
                MoonshotUID := { String := "uid-1", Valid := true }
                CreatedAt := { year := 1999, month := 1, day := 2, hour := 3,
                               minute := 4, second := 5 }
                Category := "goodcase"
                Tags := ["t1", "t2"]
                isChatRecord := false } :=
  ⟨curl_authorization_fixed.1 exampleRecord,
   curl_authorization_fixed.2 exampleRecord _ rfl rfl rfl rfl⟩

/-- A one-string prefix test on its own concatenation succeeds. -/
theorem goHasPfx_append (p s : String) : goHasPfx (p ++ s) p = true := by
  rw [goHasPfx, String.data_append]
  simp [List.isPrefixOf_iff_prefix]

/-- Trimming a prefix off its own concatenation leaves the tail. -/
theorem goTrimPfx_append (p s : String) : goTrimPfx (p ++ s) p = s := by
  rw [goTrimPfx, if_pos (goHasPfx_append p s)]
  apply strEq_of_data
  rw [String.data_append]
  exact List.drop_left p.data s.data

/-- A prefix test fails as soon as the first characters differ. -/
theorem goHasPfx_false_head {s p : String} {c d : Char} {cs ds : List Char}
    (hs : s.data = c :: cs) (hp : p.data = d :: ds) (h : ¬d = c) :
    goHasPfx s p = false := by
  rw [goHasPfx, hs, hp]
  simp [List.isPrefixOf, h]

/-- C5: genFilename follows the fixed identifier precedence: a completion id
gives `<id>.json` whatever the other fields are; else an external request id
gives `requestid-<id>.json`; else the name is the lower-cased method, a
hyphen, the path with its `/v1/` prefix stripped and `/` replaced by `-`,
optionally a hyphen and the UID, a hyphen and the `YYYYMMDDHHMMSS` creation
timestamp, then `.json` — a value fully determined by method, path, UID and
timestamp. -/
theorem genFilename_spec (r : Request) :
    (r.chatcmplId.Valid = true →
        genFilename r = r.chatcmplId.String ++ ".json")
  ∧ (r.chatcmplId.Valid = false → r.externalRequestId.Valid = true →
        genFilename r = "requestid-" ++ r.externalRequestId.String ++ ".json")
  ∧ (r.chatcmplId.Valid = false → r.externalRequestId.Valid = false →
        genFilename r
          = goToLower r.RequestMethod ++ "-"
              ++ goReplaceAllChar (goTrimPfx r.RequestPath "/v1/") '/' "-"
              ++ (if r.MoonshotUID.Valid then "-" ++ r.MoonshotUID.String else "")
              ++ "-" ++ r.CreatedAt.Format ++ ".json")
  ∧ (∀ r2 : Request, r.chatcmplId.Valid = false → r.externalRequestId.Valid = false →
        r2.chatcmplId.Valid = false → r2.externalRequestId.Valid = false →
        r.RequestMethod = r2.RequestMethod → r.RequestPath = r2.RequestPath →
        r.MoonshotUID = r2.MoonshotUID → r.CreatedAt = r2.CreatedAt →
        genFilename r = genFilename r2) := by
  have hmain : ∀ rr : Request, rr.chatcmplId.Valid = false →
      rr.externalRequestId.Valid = false →
      genFilename rr
        = goToLower rr.RequestMethod ++ "-"
            ++ goReplaceAllChar (goTrimPfx rr.RequestPath "/v1/") '/' "-"
            ++ (if rr.MoonshotUID.Valid then "-" ++ rr.MoonshotUID.String else "")
            ++ "-" ++ rr.CreatedAt.Format ++ ".json" := by
    intro rr h1 h2
    have hid : rr.Ident = "id=" ++ toString rr.id := by
      simp [Request.Ident, h1, h2]
    have hf1 : goHasPfx rr.Ident "chatcmpl=" = false := by
      rw [hid]
      exact goHasPfx_false_head rfl rfl (by decide)
    have hf2 : goHasPfx rr.Ident "requestid=" = false := by
      rw [hid]
      exact goHasPfx_false_head rfl rfl (by decide)
    simp [genFilename, hf1, hf2]
  refine ⟨?_, ?_, hmain r, ?_⟩
  · intro h
    have hid : r.Ident = "chatcmpl=" ++ r.chatcmplId.String := by
      simp [Request.Ident, h]
    simp [genFilename, hid, goHasPfx_append, goTrimPfx_append]
  · intro h1 h2
    have hid : r.Ident = "requestid=" ++ r.externalRequestId.String := by
      simp [Request.Ident, h1, h2]
    have hf1 : goHasPfx ("requestid=" ++ r.externalRequestId.String) "chatcmpl=" = false :=
      goHasPfx_false_head rfl rfl (by decide)
    simp only [genFilename]
    rw [hid]
    simp [hf1, goHasPfx_append, goTrimPfx_append]
  · intro r2 h1 h2 h3 h4 hm hp hu hc
    rw [hmain r h1 h2, hmain r2 h3 h4, hm, hp, hu, hc]

/-- Witness for C5 at one record per precedence branch. -/
theorem genFilename_spec_witness :
    genFilename chatIdRecord = "chatcmpl-123.json"
    ∧ genFilename reqIdRecord = "requestid-req-42.json"
    ∧ genFilename plainRecord = "post-chat-completions-uidX-20240501120000.json" := by
  refine ⟨?_, ?_, ?_⟩
  · rw [(genFilename_spec chatIdRecord).1 rfl]
    decide
  · rw [(genFilename_spec reqIdRecord).2.1 rfl rfl]
    decide
  · rw [(genFilename_spec plainRecord).2.2.1 rfl rfl]
    decide

/-- C6 counterexample: with every flag left at its registered default the
export hands the record to the JSON encoder with HTML escaping off, not on:
`escape-html` is registered with default `false` (export.go:95) and passed
straight to `SetEscapeHTML` (export.go:83). -/
theorem escape_html_default_counterexample :
    exportRun defaultFlags exampleRecord = .jsonOut exampleRecord false
    ∧ ¬exportRun defaultFlags exampleRecord = .jsonOut exampleRecord true := by
  constructor
  · decide
  · decide

/-- C6 amended: the JSON renderer's HTML-escaping toggle defaults to off when
the caller does not set it — the flag's registered default is `false`, so
escaping of `<`, `>`, `&` happens only when the caller enables the toggle
explicitly. -/
theorem escape_html_default_off (r : Request) :
    defaultFlags.escapeHTML = false
    ∧ exportRun defaultFlags r = .jsonOut r false := by
  refine ⟨rfl, ?_⟩
  simp [exportRun, defaultFlags, annotate]

/-- C7: annotation ignores every input for non-chat records; for chat
records, the good flag sets category `goodcase`, the bad flag (without good)
sets `badcase`, a nonempty tag list replaces the tag sequence wholesale, an
empty tag list leaves tags alone, flags left unset leave the category alone,
and with no inputs at all the record is untouched. -/
theorem annotate_spec (r : Request) (g b : Bool) (t : List String) :
    (r.IsChat = false → annotate g b t r = r)
  ∧ (r.IsChat = true → g = true → (annotate g b t r).Category = "goodcase")
  ∧ (r.IsChat = true → g = false → b = true → (annotate g b t r).Category = "badcase")
  ∧ (r.IsChat = true → t ≠ [] → (annotate g b t r).Tags = t)
  ∧ (g = false → b = false → (annotate g b t r).Category = r.Category)
  ∧ (t = [] → (annotate g b t r).Tags = r.Tags)
  ∧ (g = false → b = false → t = [] → annotate g b t r = r) := by
  refine ⟨?_, ?_, ?_, ?_, ?_, ?_, ?_⟩
  · intro h
    simp [annotate, h]
  · intro h hg
    by_cases ht : 0 < t.length <;> simp [annotate, h, hg, ht]
  · intro h hg hb
    by_cases ht : 0 < t.length <;> simp [annotate, h, hg, hb, ht]
  · intro h ht
    have ht2 : 0 < t.length := List.length_pos.mpr ht
    cases g <;> cases b <;> simp [annotate, h, ht2]
  · intro hg hb
    by_cases hc : r.IsChat <;> by_cases ht : 0 < t.length <;>
      simp [annotate, hg, hb, hc, ht]
  · intro ht
    by_cases hc : r.IsChat <;> cases g <;> cases b <;> simp [annotate, ht, hc]
  · intro hg hb ht
    simp [annotate, hg, hb, ht]

/-- Witness for C7: each annotation behavior at concrete records. -/
theorem annotate_spec_witness :
    annotate true false ["x"] nonChatRecord = nonChatRecord
    ∧ (annotate true false ["a"] annotatedChatRecord).Category = "goodcase"
    ∧ (annotate false true [] annotatedChatRecord).Category = "badcase"
    ∧ (annotate false false ["a", "b"] annotatedChatRecord).Tags = ["a", "b"]
    ∧ annotate false false [] annotatedChatRecord = annotatedChatRecord :=
  ⟨(annotate_spec nonChatRecord true false ["x"]).1 rfl,
   (annotate_spec annotatedChatRecord true false ["a"]).2.1 rfl rfl,
   (annotate_spec annotatedChatRecord false true []).2.2.1 rfl rfl rfl,
   (annotate_spec annotatedChatRecord false false ["a", "b"]).2.2.2.1 rfl (by decide),
   (annotate_spec annotatedChatRecord false false []).2.2.2.2.2.2 rfl rfl rfl⟩

/-- The fuel of `parseFuel` is irrelevant beyond the line count: each
iteration consumes at least one line, so any two fuels above the number of
lines give the same result — the fuel in `readMIMEHeader` is enough. -/
theorem parseFuel_congr (f1 : Nat) : ∀ (f2 : Nat) (m : MIMEHeader)
    (lines : List String), lines.length < f1 → lines.length < f2 →
    parseFuel f1 m lines = parseFuel f2 m lines := by
  induction f1 with
  | zero =>
    intro f2 m lines h1 _
    exact absurd h1 (Nat.not_lt_zero _)
  | succ f1 ih =>
    intro f2 m lines h1 h2
    cases f2 with
    | zero => exact absurd h2 (Nat.not_lt_zero _)
    | succ f2 =>
      cases lines with
      | nil => rfl
      | cons l ls =>
        simp only [parseFuel]
        split
        · rfl
        · split
          · rfl
          · split
            · rfl
            · split
              · rfl
              · split
                · apply ih
                  · exact Nat.lt_of_le_of_lt
                      ((List.dropWhile_sublist _).length_le)
                      (Nat.lt_of_succ_lt_succ h1)
                  · exact Nat.lt_of_le_of_lt
                      ((List.dropWhile_sublist _).length_le)
                      (Nat.lt_of_succ_lt_succ h2)
                · rfl

/-- C8 counterexample: the header block `"A: 1\nbadline"` fails MIME parsing
(its second line has no colon), yet the rendering is not the rendering of
the record with the block absent — the `A: 1` entry parsed before the
failure is still emitted, so a parse failure is not treated as "no
headers". -/
theorem curl_parse_failure_counterexample :
    (readMIMEHeader ("A: 1\nbadline" ++ "\r\n\r\n")).2 = true
    ∧ headerChunks badHeaderRecord = ["-H 'A: 1' \\\n\t"]
    ∧ ¬writeCurlCommand badHeaderRecord
        = writeCurlCommand (dropHeader badHeaderRecord) := by
  refine ⟨by decide, by decide, by decide⟩

/-- C8 amended: a header block whose MIME parsing fails does not abort curl
rendering — the parse error is discarded and the renderer emits the entries
parsed before the failure point (best effort); the output coincides with the
no-headers output exactly in the case that nothing was parsed before the
failure. -/
theorem curl_parse_failure_best_effort (r : Request)
    (hv : r.RequestHeader.Valid = true) :
    writeCurlCommand r
      = concatAll (xchunk r :: authChunk ::
          ((flattenEntries (strippedEntries r)).map renderHChunk
            ++ bodyChunks r ++ ["\n"]))
  ∧ ((readMIMEHeader (r.RequestHeader.String ++ "\r\n\r\n")).1 = [] →
      writeCurlCommand r = writeCurlCommand (dropHeader r)) := by
  constructor
  · simp [writeCurlCommand, curlChunks, headerChunks, hv]
  · intro hp
    have hs : strippedEntries r = [] := by
      simp [strippedEntries, hp, MIMEHeader.Del]
    simp [writeCurlCommand, curlChunks, headerChunks, hv, hs, flattenEntries,
      dropHeader, xchunk, Request.Url, bodyChunks]

/-- Witness for C8 (amended) at a record whose header block fails parsing
before any entry is parsed: the output equals the no-headers output. -/
theorem curl_parse_failure_best_effort_witness :
    spaceHeaderRecord.RequestHeader.Valid = true
    ∧ (readMIMEHeader (spaceHeaderRecord.RequestHeader.String ++ "\r\n\r\n")).1 = []
    ∧ writeCurlCommand spaceHeaderRecord
        = writeCurlCommand (dropHeader spaceHeaderRecord) :=
  ⟨rfl, by decide,
   (curl_parse_failure_best_effort spaceHeaderRecord rfl).2 (by decide)⟩

/-- C9: header parsing happens on the stored block with the blank-line
terminator `"\r\n\r\n"` appended and only when the block's validity flag is
set; with no stored block no per-header `-H` chunk is emitted at all; on a
concrete block without its own trailing blank line, the appended terminator
makes the parse succeed. -/
theorem curl_header_block_gating (r : Request) :
    (r.RequestHeader.Valid = false →
        headerChunks r = []
      ∧ writeCurlCommand r
          = concatAll (xchunk r :: authChunk :: (bodyChunks r ++ ["\n"])))
  ∧ (r.RequestHeader.Valid = true →
        headerChunks r
          = (flattenEntries
              (((readMIMEHeader (r.RequestHeader.String ++ "\r\n\r\n")).1.Del
                  "Content-Length").Del "X-Unix-Micro")).map renderHChunk)
  ∧ readMIMEHeader ("Content-Type: application/json" ++ "\r\n\r\n")
      = ([("Content-Type", ["application/json"])], false) := by
  refine ⟨?_, ?_, by decide⟩
  · intro h
    constructor
    · simp [headerChunks, h]
    · simp [writeCurlCommand, curlChunks, headerChunks, h]
  · intro h
    simp [headerChunks, strippedEntries, h]

/-- Witness for C9 at a record with no stored block and one with a stored
block. -/
theorem curl_header_block_gating_witness :
    exampleRecord.RequestHeader.Valid = false
    ∧ headerChunks exampleRecord = []
    ∧ headeredRecord.RequestHeader.Valid = true
    ∧ headerChunks headeredRecord
        = (flattenEntries
            (((readMIMEHeader (headeredRecord.RequestHeader.String ++ "\r\n\r\n")).1.Del
                "Content-Length").Del "X-Unix-Micro")).map renderHChunk :=
  ⟨rfl, ((curl_header_block_gating exampleRecord).1 rfl).1, rfl,
   (curl_header_block_gating headeredRecord).2.1 rfl⟩

/-- C10: when the curl flag is set the export writes the curl rendering of
the record exactly as loaded and returns before the annotation step: the
output is the same whatever the good/bad/tag (and escape-html) inputs are,
and the record's category and tags are never touched. -/
theorem curl_mode_skips_annotation (g b : Bool) (t : List String) (eh : Bool)
    (r : Request) :
    exportRun { goodCase := g, badCase := b, tags := t, escapeHTML := eh, curl := true } r
      = .curlOut (writeCurlCommand r) := by
  simp [exportRun]

end Moonpalace
